import Mathlib

/-!
Shallow embedding of the pairwise multiple-comparisons experiment in
`exercise4-02-03-2020/multiple_comparisons.ipynb`.

The notebook generates `N` series of length `T` of standard-normal samples,
then runs `stats.spearmanr` on every pair `(i, j)` with `i < j` and collects
the pairs whose p-value is strictly below `cutoff`.

The random sampler and the Spearman test are external library primitives
(numpy / scipy); they are modelled as parameters: the sampler as a stream
`ℕ → ℚ` of drawn values consumed in order, and the test as a function
returning an optional rational p-value (`none` models a NaN float).
-/

namespace MultipleComparisons

/-- Python `range(a, b)`: the list `[a, a+1, ..., b-1]` (empty when `b ≤ a`). -/
def pythonRange (a b : ℕ) : List ℕ := List.range' a (b - a)

/-- The index pairs visited, in order, by the nested loop
`for i in range(N): for j in range(i+1, N): ...` of the scan cell. -/
def allPairs (N : ℕ) : List (ℕ × ℕ) :=
  (List.range N).flatMap fun i => (pythonRange (i + 1) N).map fun j => (i, j)

/-- Python float comparison `pvalue < cutoff`, where the p-value may be the
float NaN (modelled as `none`); any comparison against NaN is `False`. -/
def pyLt : Option ℚ → ℚ → Bool
  | none, _ => false
  | some p, c => decide (p < c)

/-- The `significant_pairs` list built by the scan cell: the loop appends
`(i, j)` exactly when `pvalue < cutoff`, so the result is the filter of the
visited pairs.  `pvalue i j` is the second component of
`stats.spearmanr(df.iloc[:, i], df.iloc[:, j])`, kept abstract. -/
def significant_pairs (N : ℕ) (pvalue : ℕ → ℕ → Option ℚ) (cutoff : ℚ) :
    List (ℕ × ℕ) :=
  (allPairs N).filter fun ij => pyLt (pvalue ij.1 ij.2) cutoff

/-- The data-generation cell: `for i in range(N): df['X%s' % i] = np.random.normal(0, 1, T)`.
The sampler draws `T` values per series from the global stream in order, so
series `i`, entry `t`, is draw number `i * T + t`. -/
def generate (N T : ℕ) (stream : ℕ → ℚ) : List (List ℚ) :=
  (List.range N).map fun i => (List.range T).map fun t => stream (i * T + t)

/-- A whole experiment run: generate the series, then scan all pairs with the
external Spearman primitive `sp` applied to the two series of each pair. -/
def runExperiment (N T : ℕ) (stream : ℕ → ℚ) (sp : List ℚ → List ℚ → Option ℚ)
    (cutoff : ℚ) : List (ℕ × ℕ) :=
  let df := generate N T stream
  significant_pairs N (fun i j => sp (df.getD i []) (df.getD j [])) cutoff

/-- The expected-count cell `(N * (N-1) / 2) * 0.05`, generalised to a cutoff
`c`: the closed-form expected number of significant pairs. -/
def expected_count (N : ℕ) (c : ℚ) : ℚ :=
  ((N : ℚ) * ((N : ℚ) - 1) / 2) * c

/-- Strict lexicographic order on index pairs. -/
def lexLt (a b : ℕ × ℕ) : Prop :=
  a.1 < b.1 ∨ (a.1 = b.1 ∧ a.2 < b.2)

/-- The mutable state of the scan cell: the data frame `df` (only read), the
`cutoff` (only read), and the `significant_pairs` accumulator (appended to).
The `logs` component records messages the loop body would print or log; the
body contains no print or logging statement, so no step ever extends it. -/
structure ScanState where
  df : List (List ℚ)
  cutoff : ℚ
  pairs : List (ℕ × ℕ)
  logs : List String

/-- One iteration of the inner loop body: read the two series, call the
Spearman primitive `sp`, take its p-value, and append the pair exactly when
`pvalue < cutoff` (false for a NaN p-value). -/
def scanStep (sp : List ℚ → List ℚ → Option ℚ) (s : ScanState) (ij : ℕ × ℕ) :
    ScanState :=
  let Xi := s.df.getD ij.1 []
  let Xj := s.df.getD ij.2 []
  let pvalue := sp Xi Xj
  if pyLt pvalue s.cutoff then { s with pairs := s.pairs ++ [ij] } else s

/-- The whole nested loop of the scan cell, as a left fold of the loop body
over the visited pairs. -/
def scanRun (sp : List ℚ → List ℚ → Option ℚ) (s : ScanState) (N : ℕ) :
    ScanState :=
  (allPairs N).foldl (scanStep sp) s

/-- Modelled from the spec: the Bonferroni correction mode is an unfinished
exercise cell of the notebook (no code under src/ implements it).  Per the
spec, when the mode is enabled the per-test cutoff `c` is replaced by `c / K`
with `K = N·(N−1)/2`; when disabled the raw cutoff `c` is used. -/
def effectiveCutoff (bonferroni : Bool) (N : ℕ) (c : ℚ) : ℚ :=
  if bonferroni then c / ((N : ℚ) * ((N : ℚ) - 1) / 2) else c

/-- Modelled from the spec: the pairwise scan with the optional correction
mode, applying the effective cutoff to every pair. -/
def significant_pairs_mode (bonferroni : Bool) (N : ℕ)
    (pvalue : ℕ → ℕ → Option ℚ) (c : ℚ) : List (ℕ × ℕ) :=
  significant_pairs N pvalue (effectiveCutoff bonferroni N c)

/-- Comparing a non-NaN p-value against the cutoff is the rational order. -/
theorem pyLt_some (p c : ℚ) : pyLt (some p) c = true ↔ p < c := by
  simp [pyLt]

/-- Comparing a NaN p-value against the cutoff is `False`, as for Python floats. -/
theorem pyLt_none (c : ℚ) : pyLt none c = false := rfl

/-- A pair is visited by the nested loop iff its indices satisfy `i < j < N`. -/
theorem mem_allPairs {N : ℕ} {p : ℕ × ℕ} :
    p ∈ allPairs N ↔ p.1 < p.2 ∧ p.2 < N := by
  obtain ⟨a, b⟩ := p
  simp only [allPairs, pythonRange, List.mem_flatMap, List.mem_map, List.mem_range,
    List.mem_range'_1, Prod.mk.injEq]
  constructor
  · rintro ⟨i, hi, j, hj, rfl, rfl⟩
    omega
  · rintro ⟨hab, hbN⟩
    exact ⟨a, by omega, b, by omega, rfl, rfl⟩

/-- The visit order of the nested loop is strictly lexicographically increasing. -/
theorem allPairs_pairwise (N : ℕ) : (allPairs N).Pairwise lexLt := by
  rw [allPairs, List.pairwise_flatMap]
  constructor
  · intro i _
    rw [List.pairwise_map]
    exact (List.pairwise_lt_range' _ _).imp fun h => Or.inr ⟨rfl, h⟩
  · have : List.Pairwise (· < ·) (List.range N) := List.pairwise_lt_range N
    refine this.imp fun hij => ?_
    intro x hx y hy
    obtain ⟨_, _, rfl⟩ := List.mem_map.1 hx
    obtain ⟨_, _, rfl⟩ := List.mem_map.1 hy
    exact Or.inl hij

/-- No pair is visited twice. -/
theorem allPairs_nodup (N : ℕ) : (allPairs N).Nodup :=
  (allPairs_pairwise N).imp fun h => by
    rintro rfl
    rcases h with h | ⟨-, h⟩ <;> exact absurd h (lt_irrefl _)

/-- C2: for every N ≥ 2, the number of pairs (i, j), i < j, visited by the
nested loop `for i in range(N): for j in range(i+1, N)` is N·(N−1)/2. -/
theorem allPairs_count (N : ℕ) (_hN : 2 ≤ N) :
    (allPairs N).length = N * (N - 1) / 2 := by
  rw [allPairs, List.length_flatMap]
  have hmap : List.map (List.length ∘ fun i => (pythonRange (i + 1) N).map fun j => (i, j))
      (List.range N) = List.map (fun i => N - 1 - i) (List.range N) := by
    apply List.map_congr_left
    intro i _
    simp only [Function.comp_apply, List.length_map, pythonRange, List.length_range']
    omega
  rw [hmap]
  have hsum : (List.map (fun i => N - 1 - i) (List.range N)).sum =
      ∑ i ∈ Finset.range N, (N - 1 - i) := rfl
  rw [hsum, Finset.sum_range_reflect (fun i => i) N, Finset.sum_range_id]

/-- Witness for C2 at N = 5. -/
theorem allPairs_count_witness : 2 ≤ 5 ∧ (allPairs 5).length = 5 * (5 - 1) / 2 :=
  ⟨by decide, allPairs_count 5 (by decide)⟩

/-- C6: N = 2 visits exactly one pair; N = 0 and N = 1 visit zero pairs, and
the scan still returns a defined (empty) result rather than failing. -/
theorem boundary_pairs :
    (allPairs 2).length = 1 ∧ allPairs 0 = [] ∧ allPairs 1 = [] ∧
    ∀ (pv : ℕ → ℕ → Option ℚ) (c : ℚ),
      significant_pairs 0 pv c = [] ∧ significant_pairs 1 pv c = [] :=
  ⟨rfl, rfl, rfl, fun _ _ => ⟨rfl, rfl⟩⟩

/-- C7: the closed-form expected significant-pair count (N·(N−1)/2)·c at
N = 20, c = 0.05 equals exactly 9.5, as the notebook's arithmetic cell shows. -/
theorem expected_count_at_20 : expected_count 20 (0.05 : ℚ) = (9.5 : ℚ) := by
  norm_num [expected_count]

/-- C1: for any p-value function (no NaN), the length of the reported
`significant_pairs` list equals the number of index pairs (i, j), i < j < N,
with p-value strictly below the cutoff; a pair whose p-value equals the
cutoff exactly is never recorded. -/
theorem significant_count_correct (N : ℕ) (pv : ℕ → ℕ → ℚ) (c : ℚ) :
    (significant_pairs N (fun i j => some (pv i j)) c).length =
      ((Finset.range N ×ˢ Finset.range N).filter
        (fun ij => ij.1 < ij.2 ∧ pv ij.1 ij.2 < c)).card ∧
    ∀ i j, pv i j = c →
      (i, j) ∉ significant_pairs N (fun i j => some (pv i j)) c := by
  constructor
  · have hnd : (significant_pairs N (fun i j => some (pv i j)) c).Nodup :=
      (allPairs_nodup N).filter _
    rw [← List.toFinset_card_of_nodup hnd]
    congr 1
    ext ij
    obtain ⟨a, b⟩ := ij
    simp only [significant_pairs, List.mem_toFinset, List.mem_filter, mem_allPairs,
      Finset.mem_filter, Finset.mem_product, Finset.mem_range, pyLt_some]
    constructor
    · rintro ⟨⟨hab, hbN⟩, hlt⟩
      exact ⟨⟨by omega, hbN⟩, hab, hlt⟩
    · rintro ⟨⟨-, hbN⟩, hab, hlt⟩
      exact ⟨⟨hab, hbN⟩, hlt⟩
  · intro i j hij hmem
    have hlt := pyLt_some (pv i j) c |>.1 (List.mem_filter.1 hmem).2
    rw [hij] at hlt
    exact absurd hlt (lt_irrefl c)

/-- Witness for C1 at N = 2 with a constant p-value equal to the cutoff. -/
theorem significant_count_correct_witness :
    (significant_pairs 2 (fun i j => some ((fun _ _ => (1 / 20 : ℚ)) i j))
        (1 / 20)).length =
      ((Finset.range 2 ×ˢ Finset.range 2).filter
        (fun ij => ij.1 < ij.2 ∧ (fun _ _ => (1 / 20 : ℚ)) ij.1 ij.2 < 1 / 20)).card ∧
    (0, 1) ∉ significant_pairs 2 (fun i j => some ((fun _ _ => (1 / 20 : ℚ)) i j))
        (1 / 20) :=
  ⟨(significant_count_correct 2 (fun _ _ => (1 / 20 : ℚ)) (1 / 20)).1,
   (significant_count_correct 2 (fun _ _ => (1 / 20 : ℚ)) (1 / 20)).2 0 1 rfl⟩

/-- C10: every recorded pair (i, j) satisfies i < j < N, and the recorded list
is strictly increasing in lexicographic order, so no pair appears twice. -/
theorem significant_pairs_sorted (N : ℕ) (pv : ℕ → ℕ → Option ℚ) (c : ℚ) :
    (∀ p ∈ significant_pairs N pv c, p.1 < p.2 ∧ p.2 < N) ∧
    (significant_pairs N pv c).Pairwise lexLt := by
  constructor
  · intro p hp
    exact mem_allPairs.1 (List.mem_filter.1 hp).1
  · exact List.Pairwise.sublist (List.filter_sublist _) (allPairs_pairwise N)

/-- Witness for C10 at N = 3 with an always-significant p-value. -/
theorem significant_pairs_sorted_witness :
    (1, 2) ∈ significant_pairs 3 (fun _ _ => some 0) 1 ∧ ((1 : ℕ) < 2 ∧ 2 < 3) :=
  ⟨by decide, (significant_pairs_sorted 3 (fun _ _ => some 0) 1).1 (1, 2) (by decide)⟩

/-- C3 counterexample: with the invalid cutoff 2 (outside (0,1)) the code is
not rejected at entry: the experiment generates the series, runs every test,
and reports all three pairs significant. -/
theorem no_config_validation_cex :
    runExperiment 3 2 (fun k => (k : ℚ)) (fun _ _ => some 0) 2 =
      [(0, 1), (0, 2), (1, 2)] := by
  decide

/-- C3 amended: the code performs no configuration validation; for any N, T
and any cutoff, including one outside (0,1), the full pairwise computation is
performed and a result returned — with a cutoff above 1 and any genuine
(≤ 1, non-NaN) p-values, every visited pair is reported significant. -/
theorem no_config_validation (N T : ℕ) (stream : ℕ → ℚ)
    (sp : List ℚ → List ℚ → Option ℚ) (c : ℚ) (hc : 1 < c)
    (hsp : ∀ x y, ∃ q, sp x y = some q ∧ q ≤ 1) :
    runExperiment N T stream sp c = allPairs N := by
  unfold runExperiment significant_pairs
  apply List.filter_eq_self.2
  intro ij _
  show pyLt (sp ((generate N T stream).getD ij.1 [])
      ((generate N T stream).getD ij.2 [])) c = true
  obtain ⟨q, hq, hq1⟩ := hsp ((generate N T stream).getD ij.1 [])
    ((generate N T stream).getD ij.2 [])
  rw [hq, pyLt_some]
  linarith

/-- Witness for the amended C3 at N = 2, T = 1, cutoff 2. -/
theorem no_config_validation_witness :
    runExperiment 2 1 (fun k => (k : ℚ)) (fun _ _ => some 1) 2 = allPairs 2 :=
  no_config_validation 2 1 _ _ 2 (by norm_num)
    (fun _ _ => ⟨1, rfl, le_refl 1⟩)

/-- C4 counterexample: a run in which the Spearman primitive returns a NaN
p-value (modelled as `none`) for the pairs involving series 0.  Those pairs
are excluded and the scan completes the remaining pair, but the log stays
empty: nothing is logged for visibility, contrary to the claim. -/
theorem nan_not_logged_cex :
    (scanRun (fun x _ => if x = [(0 : ℚ)] then none else some 0)
        ⟨[[0], [1], [2]], 1, [], []⟩ 3).pairs = [(1, 2)] ∧
    (scanRun (fun x _ => if x = [(0 : ℚ)] then none else some 0)
        ⟨[[0], [1], [2]], 1, [], []⟩ 3).logs = [] := by
  exact ⟨by decide, by decide⟩

/-- C4 amended: a pair with NaN p-value is treated as non-significant (never
recorded), and the scan still completes the remaining pairs: every visited
pair passing the test is recorded.  No logging occurs (the loop body has no
logging statement). -/
theorem nan_nonsignificant (N : ℕ) (pv : ℕ → ℕ → Option ℚ) (c : ℚ) :
    (∀ i j, pv i j = none → (i, j) ∉ significant_pairs N pv c) ∧
    (∀ i j, (i, j) ∈ allPairs N → pyLt (pv i j) c = true →
      (i, j) ∈ significant_pairs N pv c) := by
  constructor
  · intro i j hnone hmem
    have hb := (List.mem_filter.1 hmem).2
    rw [hnone, pyLt_none] at hb
    exact Bool.false_ne_true hb
  · intro i j hall hpy
    exact List.mem_filter.2 ⟨hall, hpy⟩

/-- Witness for the amended C4 at N = 2. -/
theorem nan_nonsignificant_witness :
    (0, 1) ∉ significant_pairs 2 (fun _ _ => none) 1 ∧
    (0, 1) ∈ significant_pairs 2 (fun _ _ => some 0) 1 :=
  ⟨(nan_nonsignificant 2 (fun _ _ => none) 1).1 0 1 rfl,
   (nan_nonsignificant 2 (fun _ _ => some 0) 1).2 0 1 (by decide) (by decide)⟩

/-- C5: the computation is deterministic given the random draws: two runs
whose sample streams agree on the N·T draws consumed produce identical series
data and identical significant-pair lists. -/
theorem deterministic_given_seed (N T : ℕ) (s1 s2 : ℕ → ℚ)
    (sp : List ℚ → List ℚ → Option ℚ) (c : ℚ)
    (h : ∀ k, k < N * T → s1 k = s2 k) :
    generate N T s1 = generate N T s2 ∧
    runExperiment N T s1 sp c = runExperiment N T s2 sp c := by
  have hg : generate N T s1 = generate N T s2 := by
    unfold generate
    apply List.map_congr_left
    intro i hi
    apply List.map_congr_left
    intro t ht
    apply h
    have hi' := List.mem_range.1 hi
    have ht' := List.mem_range.1 ht
    calc i * T + t < i * T + T := by omega
      _ = (i + 1) * T := by ring
      _ ≤ N * T := Nat.mul_le_mul_right T hi'
  refine ⟨hg, ?_⟩
  unfold runExperiment
  rw [hg]

/-- Witness for C5: two streams agreeing on the first 2·2 = 4 draws. -/
theorem deterministic_given_seed_witness :
    generate 2 2 (fun k => (k : ℚ)) =
      generate 2 2 (fun k => if k < 4 then (k : ℚ) else 0) ∧
    runExperiment 2 2 (fun k => (k : ℚ)) (fun _ _ => some 0) 1 =
      runExperiment 2 2 (fun k => if k < 4 then (k : ℚ) else 0)
        (fun _ _ => some 0) 1 :=
  deterministic_given_seed 2 2 _ _ _ _ (by decide)

/-- C8 (modelled from the spec): with the correction mode enabled a pair is
recorded iff it is visited and its p-value is below c/K, K = N·(N−1)/2; with
the mode disabled, iff its p-value is below the raw cutoff c. -/
theorem bonferroni_mode (N : ℕ) (pv : ℕ → ℕ → Option ℚ) (c : ℚ) (i j : ℕ) :
    ((i, j) ∈ significant_pairs_mode true N pv c ↔
      (i, j) ∈ allPairs N ∧
        pyLt (pv i j) (c / ((N : ℚ) * ((N : ℚ) - 1) / 2)) = true) ∧
    ((i, j) ∈ significant_pairs_mode false N pv c ↔
      (i, j) ∈ allPairs N ∧ pyLt (pv i j) c = true) := by
  constructor <;>
    simp [significant_pairs_mode, significant_pairs, effectiveCutoff, List.mem_filter]

/-- The loop body never writes the data frame, the cutoff or the log, over
any list of visited pairs. -/
theorem foldl_scanStep_frame (sp : List ℚ → List ℚ → Option ℚ) :
    ∀ (l : List (ℕ × ℕ)) (s : ScanState),
      (l.foldl (scanStep sp) s).df = s.df ∧
      (l.foldl (scanStep sp) s).cutoff = s.cutoff ∧
      (l.foldl (scanStep sp) s).logs = s.logs
  | [], _ => ⟨rfl, rfl, rfl⟩
  | ij :: l, s => by
    have hstep : (scanStep sp s ij).df = s.df ∧ (scanStep sp s ij).cutoff = s.cutoff ∧
        (scanStep sp s ij).logs = s.logs := by
      simp only [scanStep]
      split <;> exact ⟨rfl, rfl, rfl⟩
    have ih := foldl_scanStep_frame sp l (scanStep sp s ij)
    simp only [List.foldl_cons]
    exact ⟨ih.1.trans hstep.1, ih.2.1.trans hstep.2.1, ih.2.2.trans hstep.2.2⟩

/-- C9: the full pairwise scan mutates nothing but its result accumulator:
the series data frame and the cutoff (and the log) are unchanged after it. -/
theorem scan_frame (sp : List ℚ → List ℚ → Option ℚ) (s : ScanState) (N : ℕ) :
    (scanRun sp s N).df = s.df ∧ (scanRun sp s N).cutoff = s.cutoff ∧
    (scanRun sp s N).logs = s.logs :=
  foldl_scanStep_frame sp (allPairs N) s

end MultipleComparisons
